import Mathlib

/-!
Shallow embedding of `dataprep/eda/basic/viz_uni.py` (class `UniViz`): the
derived tabular structures each rendering operation builds (category /
count / percentage rows, histogram bin rows, quad geometry, QQ diagonal
endpoints, box-plot geometry) and the render-success flag state.

Numeric modelling: Python/pandas floats are modelled by `ℚ`; a division
whose denominator is zero yields NaN (or ±inf) in NumPy/pandas, which we
model by `Option ℚ` with `none` standing for the undefined value.
Python's `sorted` and pandas `sort_values` are modelled by a stable
insertion sort; none of the verified properties depends on the order of
tie-breaking beyond stability.
-/

namespace VizUni

/-- `num / den * 100` as pandas computes a percentage column; `none`
models the NaN/inf float produced when `den = 0`. -/
def fdivPct (num den : ℚ) : Option ℚ :=
  if den = 0 then none else some (num / den * 100)

/-- Sum of a list of optional rationals; `none` (NaN) propagates through
the sum, as float NaN does. -/
def optSum : List (Option ℚ) → Option ℚ
  | [] => some 0
  | x :: xs => x.bind fun a => (optSum xs).map fun b => a + b

/-- Stable insertion into a sorted list: on ties the inserted (earlier)
element stays in front. -/
def insertSorted (le : α → α → Bool) (a : α) : List α → List α
  | [] => [a]
  | b :: bs => if le a b then a :: b :: bs else b :: insertSorted le a bs

/-- Stable insertion sort, modelling Python `sorted` / pandas
`sort_values` (both keep ties in input order up to sort kind). -/
def sortBy (le : α → α → Bool) : List α → List α
  | [] => []
  | a :: rest => insertSorted le a (sortBy le rest)

theorem length_insertSorted (le : α → α → Bool) (a : α) (l : List α) :
    (insertSorted le a l).length = l.length + 1 := by
  induction l with
  | nil => rfl
  | cons b bs ih =>
    simp only [insertSorted]
    by_cases h : le a b
    · simp [h]
    · simp [h, ih]

theorem length_sortBy (le : α → α → Bool) (l : List α) :
    (sortBy le l).length = l.length := by
  induction l with
  | nil => rfl
  | cons a rest ih => simp [sortBy, length_insertSorted, ih]

/-- The key both `pie_viz` (`sort_values(by=count, ascending=...)`) and
`bar_viz` (`sorted(..., key=itemgetter(1), reverse=not ascending)`) sort
by: the count, ascending or descending per the flag. -/
def countLe (ascending : Bool) (a b : String × ℤ) : Bool :=
  if ascending then decide (a.2 ≤ b.2) else decide (b.2 ≤ a.2)

/-- Sum of the counts of a category/count table. -/
def countSum (l : List (String × ℤ)) : ℤ := (l.map Prod.snd).sum

/-! ## pie_viz (viz_uni.py lines 53-124)

Input mapping modelled as the list of (category, count) items in dict
order; `pd.Series(data).dropna()` drops nothing for integer counts, so
the input list is the post-drop table. -/

/-- `data_sorted = data_df.sort_values(by=["count"], ascending=ascending)`. -/
def pieSort (data : List (String × ℤ)) (ascending : Bool) : List (String × ℤ) :=
  sortBy (countLe ascending) data

/-- Lines 73-80: if more categories than `bars`, keep the first `bars`
rows of the sorted table and append an "Other" row holding the sum of
the dropped counts; otherwise keep the whole sorted table. -/
def pieDisplayed (data : List (String × ℤ)) (bars : ℕ) (ascending : Bool) :
    List (String × ℤ) :=
  let s := pieSort data ascending
  if bars < s.length then
    s.take bars ++ [("Other", countSum (s.drop bars))]
  else s

/-- Line 81: `total_count = sum(data_df["count"])` over the displayed rows. -/
def pieTotal (data : List (String × ℤ)) (bars : ℕ) (ascending : Bool) : ℤ :=
  countSum (pieDisplayed data bars ascending)

/-- Line 82: `data_df["percen"] = data_df["count"] / total_count * 100`. -/
def piePercen (data : List (String × ℤ)) (bars : ℕ) (ascending : Bool) :
    List (Option ℚ) :=
  (pieDisplayed data bars ascending).map
    fun r => fdivPct (r.2 : ℚ) ((pieTotal data bars ascending : ℤ) : ℚ)

theorem optSum_map_fdivPct (t : ℚ) (ht : t ≠ 0) (l : List (String × ℤ)) :
    optSum (l.map fun r => fdivPct (r.2 : ℚ) t) =
      some (((countSum l : ℤ) : ℚ) / t * 100) := by
  induction l with
  | nil => simp [optSum, countSum]
  | cons a rest ih =>
    have hsum : ((countSum (a :: rest) : ℤ) : ℚ) =
        ((a.2 : ℚ) + ((countSum rest : ℤ) : ℚ)) := by
      simp [countSum]
    simp only [List.map_cons, optSum, ih]
    simp only [fdivPct, if_neg ht, hsum]
    rw [add_div, add_mul]
    rfl

/-- C1 (amended): for a non-empty pie input whose displayed counts have a
nonzero total, the percentages of the displayed rows (including "Other"
when present) sum to exactly 100; with a zero total the code instead
produces NaN percentages (`none` in the model), see the counterexample. -/
theorem pie_percen_sum_100 (data : List (String × ℤ)) (bars : ℕ) (ascending : Bool)
    (_hne : data ≠ []) (htot : pieTotal data bars ascending ≠ 0) :
    optSum (piePercen data bars ascending) = some 100 := by
  have ht : ((pieTotal data bars ascending : ℤ) : ℚ) ≠ 0 := by
    exact_mod_cast htot
  rw [piePercen, optSum_map_fdivPct _ ht]
  rw [show countSum (pieDisplayed data bars ascending) =
        pieTotal data bars ascending from rfl]
  rw [div_self ht, one_mul]

/-- C1 counterexample: the non-empty input mapping x ↦ 0 has displayed
total 0, so `count / total * 100` is NaN (modelled `none`) and the
percentages do not sum to 100. -/
theorem pie_percen_sum_cex :
    ([("x", (0 : ℤ))] : List (String × ℤ)) ≠ [] ∧
    optSum (piePercen [("x", 0)] 2 false) ≠ some 100 := by
  constructor
  · simp
  · norm_num [piePercen, pieDisplayed, pieSort, sortBy, insertSorted, pieTotal,
      countSum, fdivPct, optSum]
    decide

theorem pie_percen_sum_100_witness :
    (([("a", (3 : ℤ)), ("b", 1)] : List (String × ℤ)) ≠ [] ∧
      pieTotal [("a", 3), ("b", 1)] 2 false ≠ 0) ∧
    optSum (piePercen [("a", 3), ("b", 1)] 2 false) = some 100 := by
  have h1 : ([("a", (3 : ℤ)), ("b", 1)] : List (String × ℤ)) ≠ [] := by simp
  have h2 : pieTotal [("a", (3 : ℤ)), ("b", 1)] 2 false ≠ 0 := by
    norm_num [pieTotal, pieDisplayed, pieSort, sortBy, insertSorted, countLe, countSum]
  exact ⟨⟨h1, h2⟩, pie_percen_sum_100 _ 2 false h1 h2⟩

/-- C2: when the category count exceeds `bars`, the displayed table is the
first `bars` rows of the sorted table followed by one "Other" row whose
count is the sum of the dropped counts; on input
x,y,z,w ↦ 1 with bars = 2, descending, the displayed counts are
[1, 1, 2], the last row is ("Other", 2), and the percentages are
25%, 25%, 50%. -/
theorem pie_topn_other :
    (∀ (data : List (String × ℤ)) (bars : ℕ) (ascending : Bool),
        bars < data.length →
        pieDisplayed data bars ascending =
          (pieSort data ascending).take bars ++
            [("Other", countSum ((pieSort data ascending).drop bars))]) ∧
    (pieDisplayed [("x", 1), ("y", 1), ("z", 1), ("w", 1)] 2 false).map Prod.snd
        = [1, 1, 2] ∧
    (pieDisplayed [("x", 1), ("y", 1), ("z", 1), ("w", 1)] 2 false).getLast?
        = some ("Other", 2) ∧
    piePercen [("x", 1), ("y", 1), ("z", 1), ("w", 1)] 2 false
        = [some 25, some 25, some 50] := by
  refine ⟨?_, ?_, ?_, ?_⟩
  · intro data bars ascending hlt
    have h : bars < (pieSort data ascending).length := by
      rw [pieSort, length_sortBy]; exact hlt
    rw [pieDisplayed]
    simp only [h, if_pos]
  · decide
  · decide
  · norm_num [piePercen, pieDisplayed, pieSort, sortBy, insertSorted, countLe,
      pieTotal, countSum, fdivPct]

theorem pie_topn_other_witness :
    2 < ([("x", (1 : ℤ)), ("y", 1), ("z", 1), ("w", 1)] : List (String × ℤ)).length ∧
    pieDisplayed [("x", 1), ("y", 1), ("z", 1), ("w", 1)] 2 false =
      (pieSort [("x", 1), ("y", 1), ("z", 1), ("w", 1)] false).take 2 ++
        [("Other",
          countSum ((pieSort [("x", 1), ("y", 1), ("z", 1), ("w", 1)] false).drop 2))] :=
  ⟨by decide, pie_topn_other.1 _ 2 false (by decide)⟩

/-! ## bar_viz (viz_uni.py lines 126-202) -/

/-- `max_xlab_len` class attribute (line 48). -/
def max_xlab_len : ℕ := 15

/-- Lines 148-153: a category label longer than `max_xlab_len` characters
is truncated to its first `max_xlab_len - 1` characters plus "...". -/
def truncLabel (s : String) : String :=
  if max_xlab_len < s.length then s.take (max_xlab_len - 1) ++ "..." else s

/-- Lines 145-147: `sorted(data.items(), key=itemgetter(1),
reverse=(not ascending))[0:bars]`. -/
def barSorted (data : List (String × ℤ)) (bars : ℕ) (ascending : Bool) :
    List (String × ℤ) :=
  (sortBy (countLe ascending) data).take bars

/-- Lines 148-156: the `cat` column of `data_source`, in display order,
labels truncated. -/
def barCatList (data : List (String × ℤ)) (bars : ℕ) (ascending : Bool) :
    List String :=
  (barSorted data bars ascending).map fun x => truncLabel x.1

/-- Line 157: `total = sum(count for every input item) + miss_cnt`. -/
def barTotal (data : List (String × ℤ)) (missCnt : ℤ) : ℤ :=
  countSum data + missCnt

/-- Line 158: `data_source["percen"] = data_source["count"] / total * 100`. -/
def barPercen (data : List (String × ℤ)) (missCnt : ℤ) (bars : ℕ) (ascending : Bool) :
    List (Option ℚ) :=
  (barSorted data bars ascending).map
    fun x => fdivPct (x.2 : ℚ) ((barTotal data missCnt : ℤ) : ℚ)

/-- C3: each displayed bar's percentage is its count divided by
(sum of all input counts + missing count) times 100; on input
a ↦ 10, b ↦ 5, c ↦ 1 with missing 0, bars = 2, descending, the displayed
categories are ["a", "b"] with percentages 62.5% (= 125/2) and
31.25% (= 125/4). -/
theorem bar_percen_formula :
    (∀ (data : List (String × ℤ)) (missCnt : ℤ) (bars : ℕ) (ascending : Bool),
        ((barTotal data missCnt : ℤ) : ℚ) ≠ 0 →
        barPercen data missCnt bars ascending =
          (barSorted data bars ascending).map
            fun x => some ((x.2 : ℚ) / ((barTotal data missCnt : ℤ) : ℚ) * 100)) ∧
    barCatList [("a", 10), ("b", 5), ("c", 1)] 2 false = ["a", "b"] ∧
    barPercen [("a", 10), ("b", 5), ("c", 1)] 0 2 false =
      [some (125 / 2), some (125 / 4)] := by
  refine ⟨?_, ?_, ?_⟩
  · intro data missCnt bars ascending ht
    simp only [barPercen, fdivPct, if_neg ht]
  · decide
  · norm_num [barPercen, barSorted, sortBy, insertSorted, countLe, barTotal,
      countSum, fdivPct]

theorem bar_percen_formula_witness :
    ((barTotal [("a", (10 : ℤ))] 6 : ℤ) : ℚ) ≠ 0 ∧
    barPercen [("a", 10)] 6 1 false =
      (barSorted [("a", 10)] 1 false).map
        fun x => some ((x.2 : ℚ) / ((barTotal [("a", (10 : ℤ))] 6 : ℤ) : ℚ) * 100) := by
  have ht : ((barTotal [("a", (10 : ℤ))] 6 : ℤ) : ℚ) ≠ 0 := by
    norm_num [barTotal, countSum]
  exact ⟨ht, bar_percen_formula.1 _ 6 1 false ht⟩

/-- C10: two distinct input categories, each longer than 15 characters and
agreeing on their first 14 characters, receive the identical truncated
label (14 characters plus "..."), so the displayed labels (and the `@cat`
tooltip field fed from the same column) do not distinguish them. -/
theorem bar_labels_collide :
    ("aaaaaaaaaaaaaaab" : String) ≠ "aaaaaaaaaaaaaaac" ∧
    ("aaaaaaaaaaaaaaab" : String).length > 15 ∧
    ("aaaaaaaaaaaaaaab" : String).take 14 = ("aaaaaaaaaaaaaaac" : String).take 14 ∧
    barCatList [("aaaaaaaaaaaaaaab", 2), ("aaaaaaaaaaaaaaac", 1)] 2 false =
      ["aaaaaaaaaaaaaa...", "aaaaaaaaaaaaaa..."] := by
  refine ⟨by decide, by decide, by decide, by decide⟩

/-! ## hist_viz (viz_uni.py lines 204-280) -/

/-- One row of the histogram `data_source` (lines 236-243). -/
structure HistRow where
  left : ℚ
  right : ℚ
  freq : ℚ
  percen : Option ℚ
deriving DecidableEq

/-- Lines 236-243: one row per bin — `left = bins_array[:-1]`,
`right = bins_array[1:]`, `freq = hist_array`,
`percen = hist_array / orig_df_len * 100` (NumPy division by a zero
`orig_df_len` yields inf/nan, modelled `none`). A well-formed input has
`edges.length = freqs.length + 1`; `zip` truncates mismatches. -/
def histRows (freqs edges : List ℚ) (origLen : ℕ) : List HistRow :=
  ((edges.dropLast.zip (edges.drop 1)).zip freqs).map
    fun p => ⟨p.1.1, p.1.2, p.2, fdivPct p.2 (origLen : ℚ)⟩

/-- Lines 223-243: `hist_viz` up to its tabular structure. When
`miss_cnt > 0` the title computes `miss_cnt / orig_df_len * 100` with
Python integer operands, so `orig_df_len = 0` raises ZeroDivisionError
there; with `miss_cnt = 0` that line is skipped and the rows are built. -/
def hist_viz (freqs edges : List ℚ) (missCnt : ℤ) (origLen : ℕ) :
    Except String (List HistRow) :=
  if 0 < missCnt ∧ origLen = 0 then Except.error "ZeroDivisionError"
  else Except.ok (histRows freqs edges origLen)

/-- C5: with a positive original row count, every bin row's percentage is
frequency / orig_df_len * 100, so a bin of frequency 0 yields
percentage 0; on frequencies [2, 3], edges [0, 1, 2], orig_df_len 5,
missing 0 the percentages are 40% and 60%. -/
theorem hist_percen_formula :
    (∀ (freqs edges : List ℚ) (origLen : ℕ), 0 < origLen →
        ∀ r ∈ histRows freqs edges origLen,
          r.percen = some (r.freq / (origLen : ℚ) * 100) ∧
          (r.freq = 0 → r.percen = some 0)) ∧
    hist_viz [2, 3] [0, 1, 2] 0 5 =
      Except.ok [⟨0, 1, 2, some 40⟩, ⟨1, 2, 3, some 60⟩] := by
  constructor
  · intro freqs edges origLen horig r hr
    have hne : (origLen : ℚ) ≠ 0 := Nat.cast_ne_zero.mpr horig.ne'
    simp only [histRows, List.mem_map] at hr
    obtain ⟨p, _, rfl⟩ := hr
    refine ⟨by simp [fdivPct, hne], fun hf => ?_⟩
    simp only at hf
    simp [fdivPct, hne, hf]
  · norm_num [hist_viz, histRows, fdivPct]

theorem hist_percen_formula_witness :
    0 < 4 ∧ (⟨0, 1, 1, some 25⟩ : HistRow) ∈ histRows [1] [0, 1] 4 ∧
    ((⟨0, 1, 1, some 25⟩ : HistRow).percen =
        some ((⟨0, 1, 1, some 25⟩ : HistRow).freq / ((4 : ℕ) : ℚ) * 100) ∧
      ((⟨0, 1, 1, some 25⟩ : HistRow).freq = 0 →
        (⟨0, 1, 1, some 25⟩ : HistRow).percen = some 0)) := by
  have hmem : (⟨0, 1, 1, some 25⟩ : HistRow) ∈ histRows [1] [0, 1] 4 := by
    norm_num [histRows, fdivPct]
  exact ⟨by norm_num, hmem, hist_percen_formula.1 [1] [0, 1] 4 (by norm_num) _ hmem⟩

/-- The geometry of one histogram bar: the `quad` call at lines 254-262,
with `left`/`right`/`top` bound to the bin row and the literal
`bottom=0.01`. -/
structure Quad where
  left : ℚ
  right : ℚ
  bottom : ℚ
  top : ℚ
deriving DecidableEq

/-- Lines 254-262: one quad per bin row, `bottom = 0.01`, `top = freq`. -/
def histQuads (freqs edges : List ℚ) (origLen : ℕ) : List Quad :=
  (histRows freqs edges origLen).map fun r => ⟨r.left, r.right, 1 / 100, r.freq⟩

/-- C6 counterexample: the bars' bottom coordinate is 0.01, not 0 — on
frequencies [2, 3], edges [0, 1, 2] both quads have bottom 1/100 ≠ 0. -/
theorem hist_quad_bottom_cex :
    (histQuads [2, 3] [0, 1, 2] 5).map Quad.bottom = [1 / 100, 1 / 100] ∧
    ((1 : ℚ) / 100) ≠ 0 := by
  constructor
  · norm_num [histQuads, histRows, fdivPct]
  · norm_num

/-- C6 (amended): the i-th rectangular bar spans [edges i, edges (i+1)]
horizontally and [0.01, freqs i] vertically — the bottom coordinate is
the literal 0.01, not 0. -/
theorem hist_quads_geometry (freqs edges : List ℚ) (origLen : ℕ) (i : ℕ)
    (h1 : i + 1 < edges.length) (h2 : i < freqs.length) :
    (histQuads freqs edges origLen)[i]? =
      some ⟨edges[i], edges[i + 1], 1 / 100, freqs[i]⟩ := by
  have hlen : i < (histQuads freqs edges origLen).length := by
    simp only [histQuads, histRows, List.length_map, List.length_zip,
      List.length_dropLast, List.length_drop]
    omega
  rw [List.getElem?_eq_getElem hlen]
  simp only [histQuads, histRows, List.getElem_map, List.getElem_zip,
    List.getElem_dropLast, List.getElem_drop]
  simp [show (1 : ℕ) + i = i + 1 from Nat.add_comm 1 i]

theorem hist_quads_geometry_witness :
    (0 + 1 < ([0, 1, 2] : List ℚ).length ∧ 0 < ([2, 3] : List ℚ).length) ∧
    (histQuads [2, 3] [0, 1, 2] 5)[0]? = some ⟨0, 1, 1 / 100, 2⟩ := by
  refine ⟨⟨by norm_num, by norm_num⟩, ?_⟩
  have h := hist_quads_geometry [2, 3] [0, 1, 2] 5 0 (by norm_num) (by norm_num)
  simpa using h

/-- C4: no rendering failure is surfaced on degenerate inputs — pie_viz on
the empty mapping returns a chart with no rows, pie_viz on x ↦ 0
(displayed total 0) returns a chart whose percentage column is NaN
(`none`), hist_viz with orig_df_len = 0 and no missing values returns
rows with NaN/inf percentages; the only failure that escapes is the
accidental ZeroDivisionError in the title computation when missing > 0. -/
theorem degenerate_inputs_return_charts :
    pieDisplayed [] 2 false = [] ∧
    piePercen [] 2 false = [] ∧
    pieDisplayed [("x", 0)] 2 false = [("x", 0)] ∧
    piePercen [("x", 0)] 2 false = [none] ∧
    hist_viz [2] [0, 1] 0 0 = Except.ok [⟨0, 1, 2, none⟩] ∧
    hist_viz [2] [0, 1] 1 0 = Except.error "ZeroDivisionError" := by
  refine ⟨rfl, rfl, ?_, ?_, ?_, ?_⟩
  · norm_num [pieDisplayed, pieSort, sortBy, insertSorted]
  · norm_num [piePercen, pieDisplayed, pieSort, sortBy, insertSorted, pieTotal,
      countSum, fdivPct]
  · norm_num [hist_viz, histRows, fdivPct]
  · norm_num [hist_viz]

/-! ## qqnorm_viz (viz_uni.py lines 282-311) -/

/-- Lines 296-301: the endpoints of the reference diagonal, drawn from
(min, min) to (max, max) of `np.concatenate((in_data["theory"],
in_data["sample"]))`; `np.min`/`np.max` raise on an empty array,
modelled by `none`. -/
def qqDiag (theory sample : List ℚ) : Option ((ℚ × ℚ) × (ℚ × ℚ)) :=
  match (theory ++ sample).min?, (theory ++ sample).max? with
  | some m, some M => some ((m, m), (M, M))
  | _, _ => none

/-- C7: for non-empty theory and sample arrays the diagonal runs from
(m, m) to (M, M) where m and M are the least and greatest element of the
concatenation of the two arrays. -/
theorem qqnorm_diag_endpoints (theory sample : List ℚ)
    (h1 : theory ≠ []) (_h2 : sample ≠ []) :
    ∃ m M, qqDiag theory sample = some ((m, m), (M, M)) ∧
      m ∈ theory ++ sample ∧ M ∈ theory ++ sample ∧
      (∀ x ∈ theory ++ sample, m ≤ x) ∧ (∀ x ∈ theory ++ sample, x ≤ M) := by
  have hne : theory ++ sample ≠ [] := by simp [h1]
  obtain ⟨m, hm⟩ : ∃ m, (theory ++ sample).min? = some m := by
    cases hmin : (theory ++ sample).min? with
    | none => exact absurd (List.min?_eq_none_iff.mp hmin) hne
    | some m => exact ⟨m, rfl⟩
  obtain ⟨M, hM⟩ : ∃ M, (theory ++ sample).max? = some M := by
    cases hmax : (theory ++ sample).max? with
    | none => exact absurd (List.max?_eq_none_iff.mp hmax) hne
    | some M => exact ⟨M, rfl⟩
  refine ⟨m, M, by simp [qqDiag, hm, hM], ?_, ?_, ?_, ?_⟩
  · exact List.min?_mem (fun a b => min_choice a b) hm
  · exact List.max?_mem (fun a b => max_choice a b) hM
  · intro x hx
    exact (List.le_min?_iff (fun a b c => le_min_iff) hm).mp (le_refl m) x hx
  · intro x hx
    exact (List.max?_le_iff (fun a b c => max_le_iff) hM).mp (le_refl M) x hx

theorem qqnorm_diag_endpoints_witness :
    (([3, 1] : List ℚ) ≠ [] ∧ ([2] : List ℚ) ≠ []) ∧
    (∃ m M, qqDiag [3, 1] [2] = some ((m, m), (M, M)) ∧
      m ∈ ([3, 1] : List ℚ) ++ [2] ∧ M ∈ ([3, 1] : List ℚ) ++ [2] ∧
      (∀ x ∈ ([3, 1] : List ℚ) ++ [2], m ≤ x) ∧
      (∀ x ∈ ([3, 1] : List ℚ) ++ [2], x ≤ M)) :=
  ⟨⟨by simp, by simp⟩, qqnorm_diag_endpoints [3, 1] [2] (by simp) (by simp)⟩

/-! ## box_viz (viz_uni.py lines 364-495) -/

/-- One category's five-number summary plus outliers: the per-category
record of the input dict, keys "lw", "tf", "fy", "sf", "uw",
"outliers". -/
structure BoxSummary where
  lw : ℚ
  tf : ℚ
  fy : ℚ
  sf : ℚ
  uw : ℚ
  outliers : List ℚ
deriving DecidableEq

/-- One row of the transposed dataframe after the derived geometry
columns of lines 388-390 are added. -/
structure BoxRow where
  cat : String
  lw : ℚ
  tf : ℚ
  fy : ℚ
  sf : ℚ
  uw : ℚ
  outliers : List ℚ
  x : ℚ
  y : ℚ
  w : ℚ
  x0 : ℚ
  x1 : ℚ
  h : ℚ
deriving DecidableEq

/-- Lines 381-390 for the category at integer position `pos`:
`y = (tf + sf) / 2`, `w = box_width`, `x0 = x - box_width / 2`,
`x1 = x + box_width / 2`, `h = sf - tf`. -/
def mkBoxRow (pos : ℕ) (c : String) (s : BoxSummary) (boxWidth : ℚ) : BoxRow where
  cat := c
  lw := s.lw
  tf := s.tf
  fy := s.fy
  sf := s.sf
  uw := s.uw
  outliers := s.outliers
  x := (pos : ℚ)
  y := (s.tf + s.sf) / 2
  w := boxWidth
  x0 := (pos : ℚ) - boxWidth / 2
  x1 := (pos : ℚ) + boxWidth / 2
  h := s.sf - s.tf

/-- Consecutive integer positions starting at `pos`, one per category in
input order. -/
def boxRowsFrom (pos : ℕ) (boxWidth : ℚ) :
    List (String × BoxSummary) → List BoxRow
  | [] => []
  | (c, s) :: rest => mkBoxRow pos c s boxWidth :: boxRowsFrom (pos + 1) boxWidth rest

/-- Lines 380-390: the derived table of `box_viz` —
`zip(df.columns, range(1, len(df.columns) + 1))` assigns the x-positions
1..N in input (dict) order, then the geometry columns are added. -/
def boxRows (data : List (String × BoxSummary)) (boxWidth : ℚ) : List BoxRow :=
  boxRowsFrom 1 boxWidth data

theorem boxRowsFrom_getElem? (boxWidth : ℚ) (l : List (String × BoxSummary))
    (pos i : ℕ) (hi : i < l.length) :
    (boxRowsFrom pos boxWidth l)[i]? =
      some (mkBoxRow (pos + i) (l.get ⟨i, hi⟩).1 (l.get ⟨i, hi⟩).2 boxWidth) := by
  induction l generalizing pos i with
  | nil => simp at hi
  | cons a rest ih =>
    obtain ⟨c, s⟩ := a
    cases i with
    | zero => simp [boxRowsFrom]
    | succ n =>
      have hn : n < rest.length := by simpa using hi
      simp only [boxRowsFrom, List.getElem?_cons_succ]
      rw [ih (pos + 1) n hn]
      simp [Nat.add_assoc, Nat.add_comm 1 n]

/-- C8: the i-th category (0-based) of the box-plot input is placed at
x-position i + 1, its box height is exactly sf - tf, and the box is
centered vertically at (tf + sf) / 2. -/
theorem box_positions_height (data : List (String × BoxSummary)) (boxWidth : ℚ)
    (i : ℕ) (hi : i < data.length) :
    ((boxRows data boxWidth)[i]?).map BoxRow.x = some ((i : ℚ) + 1) ∧
    ((boxRows data boxWidth)[i]?).map BoxRow.h =
      some ((data.get ⟨i, hi⟩).2.sf - (data.get ⟨i, hi⟩).2.tf) ∧
    ((boxRows data boxWidth)[i]?).map BoxRow.y =
      some (((data.get ⟨i, hi⟩).2.tf + (data.get ⟨i, hi⟩).2.sf) / 2) := by
  rw [boxRows, boxRowsFrom_getElem? boxWidth data 1 i hi]
  refine ⟨?_, rfl, rfl⟩
  show some ((1 + i : ℕ) : ℚ) = some ((i : ℚ) + 1)
  congr 1
  push_cast
  ring

theorem box_positions_height_witness :
    0 < ([("a", (⟨0, 1, 2, 3, 4, [5]⟩ : BoxSummary))] :
        List (String × BoxSummary)).length ∧
    (((boxRows [("a", ⟨0, 1, 2, 3, 4, [5]⟩)] (1 / 4))[0]?).map BoxRow.x =
        some ((0 : ℚ) + 1) ∧
      ((boxRows [("a", ⟨0, 1, 2, 3, 4, [5]⟩)] (1 / 4))[0]?).map BoxRow.h =
        some ((3 : ℚ) - 1) ∧
      ((boxRows [("a", ⟨0, 1, 2, 3, 4, [5]⟩)] (1 / 4))[0]?).map BoxRow.y =
        some (((1 : ℚ) + 3) / 2)) :=
  ⟨by norm_num,
    box_positions_height [("a", ⟨0, 1, 2, 3, 4, [5]⟩)] (1 / 4) 0 (by norm_num)⟩

/-! ## Render-success flags (viz_uni.py lines 41-46) -/

/-- The six per-chart-type render-success booleans of `UniViz`
(lines 41-46), all initially False. -/
structure UniVizFlags where
  pie : Bool
  barplot : Bool
  box : Bool
  hist : Bool
  qqnorm : Bool
  kde : Bool
deriving DecidableEq

/-- The flag values before any rendering call (class attribute
defaults, lines 41-46). -/
def initFlags : UniVizFlags :=
  ⟨false, false, false, false, false, false⟩

/-- The six chart types, one per rendering operation. -/
inductive ChartType
  | pie
  | barplot
  | box
  | hist
  | qqnorm
  | kde
deriving DecidableEq

/-- Read one chart type's flag. -/
def flagOf (s : UniVizFlags) : ChartType → Bool
  | .pie => s.pie
  | .barplot => s.barplot
  | .box => s.box
  | .hist => s.hist
  | .qqnorm => s.qqnorm
  | .kde => s.kde

/-- The flag effect of one successful rendering call: `self.pie = True`
(line 123), `self.barplot = True` (line 201), `self.box = True`
(line 493), `self.hist = True` (line 279), `self.qqnorm = True`
(line 310), `self.kde = True` (line 361) — each operation writes only
its own flag, always to True. -/
def setFlag (s : UniVizFlags) : ChartType → UniVizFlags
  | .pie => { s with pie := true }
  | .barplot => { s with barplot := true }
  | .box => { s with box := true }
  | .hist => { s with hist := true }
  | .qqnorm => { s with qqnorm := true }
  | .kde => { s with kde := true }

/-- The flag state after a sequence of successful rendering calls. -/
def applySeq (ops : List ChartType) (s : UniVizFlags) : UniVizFlags :=
  ops.foldl setFlag s

theorem flagOf_setFlag_true (s : UniVizFlags) (op : ChartType) :
    flagOf (setFlag s op) op = true := by
  cases op <;> rfl

theorem flagOf_setFlag_other (s : UniVizFlags) (op f : ChartType) (h : f ≠ op) :
    flagOf (setFlag s op) f = flagOf s f := by
  cases op <;> cases f <;> first | rfl | exact absurd rfl h

theorem flagOf_setFlag_mono (s : UniVizFlags) (op f : ChartType)
    (h : flagOf s f = true) : flagOf (setFlag s op) f = true := by
  cases op <;> cases f <;> simp_all [flagOf, setFlag]

/-- C9: each rendering operation sets its own flag to True, leaves every
other chart type's flag unchanged, and never resets a flag — so over any
sequence of successful calls the flags are monotone and the flags of
chart types not invoked in the sequence are unchanged. -/
theorem flags_monotone_frame :
    (∀ (s : UniVizFlags) (op : ChartType), flagOf (setFlag s op) op = true) ∧
    (∀ (s : UniVizFlags) (op f : ChartType), f ≠ op →
        flagOf (setFlag s op) f = flagOf s f) ∧
    (∀ (ops : List ChartType) (s : UniVizFlags) (f : ChartType),
        flagOf s f = true → flagOf (applySeq ops s) f = true) ∧
    (∀ (ops : List ChartType) (s : UniVizFlags) (f : ChartType),
        f ∉ ops → flagOf (applySeq ops s) f = flagOf s f) := by
  refine ⟨flagOf_setFlag_true, fun s op f h => flagOf_setFlag_other s op f h, ?_, ?_⟩
  · intro ops
    induction ops with
    | nil => intro s f h; exact h
    | cons op rest ih =>
      intro s f h
      exact ih (setFlag s op) f (flagOf_setFlag_mono s op f h)
  · intro ops
    induction ops with
    | nil => intro s f _; rfl
    | cons op rest ih =>
      intro s f h
      have h1 : f ≠ op := fun hf => h (hf ▸ List.mem_cons_self op rest)
      have h2 : f ∉ rest := fun hf => h (List.mem_cons_of_mem op hf)
      calc flagOf (applySeq (op :: rest) s) f
          = flagOf (applySeq rest (setFlag s op)) f := rfl
        _ = flagOf (setFlag s op) f := ih (setFlag s op) f h2
        _ = flagOf s f := flagOf_setFlag_other s op f h1

theorem flags_monotone_frame_witness :
    ChartType.pie ∉ [ChartType.barplot, ChartType.hist] ∧
    flagOf (applySeq [ChartType.barplot, ChartType.hist] initFlags) ChartType.pie =
      flagOf initFlags ChartType.pie :=
  ⟨by decide,
    flags_monotone_frame.2.2.2 [ChartType.barplot, ChartType.hist] initFlags
      ChartType.pie (by decide)⟩

end VizUni
